import Mathlib

/-!
Shallow embedding of the self-update engine of `auto_updater.py`
(class `AutoUpdater`) from the `monitoramento-notebooks` repository.

Modelling conventions:
* Machine state: file contents are `FileData`; a directory is an
  association list `FS` from file names to contents (`fsWrite` overwrites,
  `fsRemove` deletes, `fsLookup` reads).
* The persisted `version.json` record is represented by its parsed form
  (`VersionInfo`, a dictionary with optional keys mirroring Python's
  `dict.get` defaults); JSON (de)serialisation by the standard library is
  injective, so a serialised record is modelled as the constructor
  `FileData.vinfo`.
* External collaborators (the HTTP layer `requests`, `hashlib.sha256`,
  `zipfile` extraction of a downloaded artifact, the Windows service
  control `sc`, text codecs) are inputs: a transport error is `none`, the
  hash is a function parameter, service-control results are booleans.
  Time (`datetime.now`) is an integer number of seconds passed in.
* Exceptions caught by a `try/except` in the source become the
  corresponding early-return value of the surrounding function.
-/

/-- Parsed contents of `version.json`, mirroring the Python dict: every
key may be absent, and each use site applies its own `dict.get` default.
Timestamps are seconds (the source stores timezone-aware ISO strings;
arithmetic on them is arithmetic on seconds). -/
structure VersionInfo where
  version : Option String := none
  build_date : Option Int := none
  commit_hash : Option String := none
  update_url : Option String := none
  auto_update_enabled : Option Bool := none
  update_check_interval : Option Int := none
  last_update_check : Option Int := none
  backup_retention_days : Option Int := none
  last_update : Option Int := none
deriving DecidableEq, Repr

/-- Contents of one file: raw bytes, or a serialised version record
(JSON serialisation being injective, the parsed record stands for the
exact byte content written by `save_version_info`). -/
inductive FileData where
  | bytes (b : List Nat)
  | vinfo (v : VersionInfo)
deriving DecidableEq, Repr

/-- A directory: an association list from file names to contents. -/
def FS := List (String × FileData)

instance : DecidableEq FS := inferInstanceAs (DecidableEq (List (String × FileData)))

/-- Read a file (first entry wins, as in a real directory every name is
unique). -/
def fsLookup : FS → String → Option FileData
  | [], _ => none
  | e :: rest, k => if e.1 = k then some e.2 else fsLookup rest k

/-- Delete a file (`Path.unlink`); deleting a missing file is a no-op
here, call sites guard existence as the source does. -/
def fsRemove : FS → String → FS
  | [], _ => []
  | e :: rest, k => if e.1 = k then fsRemove rest k else e :: fsRemove rest k

/-- Create or overwrite a file. -/
def fsWrite (fs : FS) (k : String) (v : FileData) : FS :=
  (k, v) :: fsRemove fs k

/-! ### Version comparison (`AutoUpdater._is_newer_version`) -/

/-- ASCII decimal digit test, as used by Python `int()` on ASCII input. -/
def isAsciiDigit (c : Char) : Bool := '0' ≤ c && c ≤ '9'

/-- Numeric value of a digit character. -/
def digitVal (c : Char) : Nat := c.toNat - '0'.toNat

/-- Continuation of Python integer-literal parsing: after at least one
digit, further digits may follow, with single underscores allowed
strictly between digits. -/
def pyDigitsRest (acc : Nat) : List Char → Option Nat
  | [] => some acc
  | '_' :: c :: rest =>
      if isAsciiDigit c then pyDigitsRest (10 * acc + digitVal c) rest else none
  | c :: rest =>
      if isAsciiDigit c then pyDigitsRest (10 * acc + digitVal c) rest
      else none

/-- Python unsigned digit-group parsing: one or more digits, with single
underscores allowed between digits. -/
def pyDigits : List Char → Option Nat
  | [] => none
  | c :: rest => if isAsciiDigit c then pyDigitsRest (digitVal c) rest else none

/-- `int(s)` for a string `s`: strips surrounding whitespace, accepts an
optional sign, then a digit group; anything else raises `ValueError`,
modelled as `none`. -/
def pyInt (cs : List Char) : Option Int :=
  let core := (cs.dropWhile Char.isWhitespace).reverse.dropWhile Char.isWhitespace |>.reverse
  match core with
  | '-' :: rest => (pyDigits rest).map (fun n => -(n : Int))
  | '+' :: rest => (pyDigits rest).map (fun n => (n : Int))
  | rest => (pyDigits rest).map (fun n => (n : Int))

/-- `s.split('.')` on the character list of a version string. -/
def splitDot : List Char → List (List Char)
  | [] => [[]]
  | '.' :: rest => [] :: splitDot rest
  | c :: rest =>
    match splitDot rest with
    | g :: gs => (c :: g) :: gs
    | [] => [[c]]

/-- `version_tuple` from `_is_newer_version`:
`tuple(map(int, v.split('.')))`; any component that `int()` rejects
raises, modelled as `none`. -/
def version_tuple (v : String) : Option (List Int) :=
  (splitDot v.data).mapM pyInt

/-- Python `tuple > tuple` on integer tuples: lexicographic, a strict
prefix is smaller. -/
def tupleGt : List Int → List Int → Bool
  | [], [] => false
  | [], _ :: _ => false
  | _ :: _, [] => true
  | a :: as', b :: bs' =>
    if a > b then true else if a < b then false else tupleGt as' bs'

/-- `AutoUpdater._is_newer_version`: compare the parsed tuples; any
parse failure is caught by the bare `except` and yields `False`. -/
def _is_newer_version (new_version current_version : String) : Bool :=
  match version_tuple new_version, version_tuple current_version with
  | some a, some b => tupleGt a b
  | _, _ => false

/-! ### String helpers used by the release checker and downloader -/

/-- `s.lower()` (ASCII case folding suffices for hex digests and asset
names). -/
def lowerChars (s : String) : List Char := s.data.map Char.toLower

/-- List-prefix test on characters. -/
def isPrefixL : List Char → List Char → Bool
  | [], _ => true
  | _ :: _, [] => false
  | a :: as', b :: bs' => a == b && isPrefixL as' bs'

/-- Python's `in` on strings: substring containment. -/
def containsSub (pat : List Char) : List Char → Bool
  | [] => isPrefixL pat []
  | l@(_ :: rest) => isPrefixL pat l || containsSub pat rest

/-- `s.endswith(suf)`. -/
def endsWithL (suf l : List Char) : Bool := isPrefixL suf.reverse l.reverse

/-- `tag.lstrip('v')`: removes every leading `'v'`. -/
def stripV (s : String) : String := ⟨s.data.dropWhile (fun c => c = 'v')⟩

/-! ### Version store (`load_version_info` / `save_version_info`) -/

/-- The default record synthesised when `version.json` is absent
(lines 65–74 of the source). -/
def defaultVersionInfo (now : Int) : VersionInfo :=
  { version := some "1.0.0"
    build_date := some now
    commit_hash := some "initial"
    update_url := some "https://api.github.com/repos/seu-usuario/monitoramento-notebooks/releases/latest"
    auto_update_enabled := some true
    update_check_interval := some 86400
    last_update_check := none
    backup_retention_days := some 7 }

/-- `AutoUpdater.load_version_info`: reads the persisted record; a
malformed file (raw bytes the JSON parser rejects) is caught and an
empty dict is returned; an absent file is replaced by the default
record, which is persisted at once. -/
def load_version_info (fs : FS) (now : Int) : VersionInfo × FS :=
  match fsLookup fs "version.json" with
  | some (.vinfo v) => (v, fs)
  | some (.bytes _) => ({}, fs)
  | none => (defaultVersionInfo now, fsWrite fs "version.json" (.vinfo (defaultVersionInfo now)))

/-- `AutoUpdater.save_version_info`: serialise the record over
`version.json` (the success path; callers ignore the boolean result). -/
def save_version_info (fs : FS) (v : VersionInfo) : FS :=
  fsWrite fs "version.json" (.vinfo v)

/-! ### Release checker (`check_for_updates` and helpers) -/

/-- One entry of the feed's `assets` list. -/
structure Asset where
  name : Option String := none
  browser_download_url : Option String := none
deriving DecidableEq, Repr

/-- The release feed's JSON document. -/
structure ReleaseInfo where
  tag_name : Option String := none
  body : Option String := none
  published_at : Option String := none
  zipball_url : Option String := none
  assets : List Asset := []
deriving DecidableEq, Repr

/-- The dict returned by `check_for_updates` when a newer version is
found. -/
structure UpdateInfo where
  version : String
  download_url : Option String
  release_notes : String
  published_at : Option String
  checksum : Option String
deriving DecidableEq, Repr

/-- `AutoUpdater._get_download_url`: first asset named `*.zip`, else the
feed's `zipball_url`. -/
def _get_download_url (ri : ReleaseInfo) : Option String :=
  match ri.assets.find? (fun a => endsWithL ".zip".data (a.name.getD "").data) with
  | some a => a.browser_download_url
  | none => ri.zipball_url

/-- Loop body of `_get_checksum_from_release`: first asset whose
lowered name contains "sha256" or "checksum" and whose contents can be
fetched; `fetch` returns the first whitespace token of the body, `none`
when the fetch raises or the body has no token (both `continue`). -/
def checksumScan (fetch : String → Option String) : List Asset → Option String
  | [] => none
  | a :: rest =>
    let nm := lowerChars (a.name.getD "")
    if containsSub "sha256".data nm || containsSub "checksum".data nm then
      match a.browser_download_url with
      | none => checksumScan fetch rest
      | some url =>
        match fetch url with
        | some tok => some tok
        | none => checksumScan fetch rest
    else checksumScan fetch rest

/-- `AutoUpdater._get_checksum_from_release`. -/
def _get_checksum_from_release (ri : ReleaseInfo) (fetch : String → Option String) : Option String :=
  checksumScan fetch ri.assets

/-- Result of one `check_for_updates` call: the returned candidate, the
state of the installation directory afterwards, and whether the feed
request was issued. -/
structure CheckResult where
  result : Option UpdateInfo
  fs : FS
  networkCalled : Bool

/-- The rate-limiter test of `check_for_updates` (lines 114–122): a set
`last_update_check` closer to `now` than the check interval suppresses
the feed query. -/
def throttleHit (vi : VersionInfo) (now : Int) : Bool :=
  match vi.last_update_check with
  | some last => decide (now - last < vi.update_check_interval.getD 86400)
  | none => false

/-- `AutoUpdater.check_for_updates`. `feed = none` models any transport
error (timeout, non-2xx status, unparsable body) raised by the bounded
30 s request; the surrounding `try/except` then returns `None` with
nothing persisted. -/
def check_for_updates (fs0 : FS) (now : Int) (feed : Option ReleaseInfo)
    (fetch : String → Option String) : CheckResult :=
  let p := load_version_info fs0 now
  let vi := p.1
  let fs := p.2
  if vi.auto_update_enabled.getD true = false then ⟨none, fs, false⟩
  else
    if throttleHit vi now then ⟨none, fs, false⟩
    else if vi.update_url.getD "" = "" then ⟨none, fs, false⟩
    else
      match feed with
      | none => ⟨none, fs, true⟩
      | some ri =>
        let vi1 := { vi with last_update_check := some now }
        let fs1 := save_version_info fs vi1
        let current_version := vi.version.getD "0.0.0"
        let latest_version := stripV (ri.tag_name.getD "")
        if _is_newer_version latest_version current_version then
          ⟨some { version := latest_version
                  download_url := _get_download_url ri
                  release_notes := ri.body.getD ""
                  published_at := ri.published_at
                  checksum := _get_checksum_from_release ri fetch }, fs1, true⟩
        else ⟨none, fs1, true⟩

/-- A sample throttled record: `last_update_check = now = 1000` with the
default 86400 s interval. -/
def viThrottled : VersionInfo :=
  { version := some "1.0.0", update_url := some "u",
    update_check_interval := some 86400, last_update_check := some 1000 }

/-- Installation directory holding `viThrottled`. -/
def fsThrottled : FS := [("version.json", FileData.vinfo viThrottled)]

/-- A sample stale record: last check far in the past, short interval. -/
def viStale : VersionInfo :=
  { version := some "1.0.0", update_url := some "u",
    last_update_check := some 0, update_check_interval := some 5 }

/-- Installation directory holding `viStale`. -/
def fsStale : FS := [("version.json", FileData.vinfo viStale)]

/-! ### Downloader (`download_update` / `_verify_checksum`) -/

/-- Scratch file name used by `download_update`:
`temp_update/update_v{version}.zip`, given here relative to the scratch
directory. -/
def targetScratchName (version : String) : String := "update_v" ++ version ++ ".zip"

/-- `AutoUpdater._verify_checksum` applied to the bytes just written to
the scratch file (reading the file back yields exactly those bytes; the
streamed SHA-256 of the 4096-byte chunks is the digest of the whole
content). `sha256hex` is `hashlib`'s hex digest, an external
collaborator. The comparison is case-insensitive. -/
def _verify_checksum (b : List Nat) (expected_checksum : String)
    (sha256hex : List Nat → String) : Bool :=
  lowerChars (sha256hex b) == lowerChars expected_checksum

/-- `AutoUpdater.download_update`: create the scratch directory, stream
the artifact to `update_v{version}.zip`, then verify the checksum when
the candidate carries one; on mismatch the corrupt file is unlinked and
the attempt fails. `net = none` models a transport error of the 300 s
download request. Returns the scratch path and the scratch directory's
contents (`none` = directory absent). -/
def download_update (ui : UpdateInfo) (net : Option (List Nat))
    (sha256hex : List Nat → String) (temp : Option FS) : Option String × Option FS :=
  if (ui.download_url.getD "") = "" then (none, temp)
  else
    let tfs := temp.getD []
    let download_file := targetScratchName ui.version
    match net with
    | none => (none, some tfs)
    | some b =>
      let tfs1 := fsWrite tfs download_file (.bytes b)
      match ui.checksum with
      | none => (some download_file, some tfs1)
      | some expected =>
        if _verify_checksum b expected sha256hex then (some download_file, some tfs1)
        else (none, some (fsRemove tfs1 download_file))

/-- A concrete candidate carrying an (upper-case) expected checksum. -/
def uiChecksum : UpdateInfo :=
  { version := "1.1.0", download_url := some "u", release_notes := "",
    published_at := none, checksum := some "AB" }

/-! ### Installer (`install_update` / `_find_main_directory`) -/

/-- The main executable-source file searched for in the extraction. -/
def mainServiceFile : String := "notebook_monitor_service.py"

/-- `files_to_update` (lines 384–388): the well-known updatable files. -/
def files_to_update : List String :=
  ["notebook_monitor_service.py", "requirements.txt", "database_schema.sql"]

/-- Result of `zipfile.extractall` on the downloaded artifact: the
`os.walk` enumeration (directory path relative to the extraction root —
`""` is the root itself — with its file names, in walk order) and the
extracted files keyed by relative path. -/
structure ExtractedTree where
  walk : List (String × List String)
  files : FS

/-- `AutoUpdater._find_main_directory`: first walked directory holding
the main service file, else the extraction root itself. -/
def _find_main_directory (walk : List (String × List String)) : String :=
  match walk.find? (fun d => d.2.contains mainServiceFile) with
  | some d => d.1
  | none => ""

/-- Relative path of file `f` inside directory `dir` of the extraction. -/
def joinPath (dir f : String) : String := if dir = "" then f else dir ++ "/" ++ f

/-- One iteration of the copy loop in `install_update`: `shutil.copy2`
of an extracted file onto the installation root when it exists. -/
def copyFile (src : FS) (dir : String) (fs : FS) (f : String) : FS :=
  match fsLookup src (joinPath dir f) with
  | some d => fsWrite fs f d
  | none => fs

/-- The copy loop of `install_update` over `files_to_update`. -/
def copyUpdateFiles (src : FS) (dir : String) (fs : FS) : FS :=
  files_to_update.foldl (copyFile src dir) fs

/-- `AutoUpdater.install_update`: stop the service (abort on failure),
extract the artifact (`tree = none` models a `BadZipFile`), locate the
main directory, copy the well-known files that exist there, then
advance the version record to the candidate's version with fresh
timestamps. The service is not restarted here. -/
def install_update (stop_ok : Bool) (tree : Option ExtractedTree)
    (ui : UpdateInfo) (now : Int) (fs : FS) : Bool × FS :=
  if !stop_ok then (false, fs)
  else
    match tree with
    | none => (false, fs)
    | some t =>
      let main_dir := _find_main_directory t.walk
      let fs1 := copyUpdateFiles t.files main_dir fs
      let p := load_version_info fs1 now
      let vi' := { p.1 with
        version := some ui.version,
        build_date := some now, last_update := some now }
      (true, save_version_info p.2 vi')

/-! ### Backup manager (`create_backup`, `_cleanup_old_backups`,
`rollback_update`) and the updater's machine state -/

/-- One archive in the `backups` directory: its file name, last-modified
time (seconds), and the archived entries (arcname → content). The zip
container built by `zipfile` is represented by its entry map, which
extraction reproduces exactly. -/
structure Backup where
  name : String
  mtime : Int
  entries : FS
deriving DecidableEq

/-- The updater's on-disk state: the installation directory, the
`backups` directory, and the `temp_update` scratch directory (`none` =
absent). -/
structure UpdaterState where
  baseFs : FS
  backups : List Backup
  temp : Option FS
deriving DecidableEq

/-- The glob `backup_*.zip` used by `_cleanup_old_backups`. -/
def matchesBackupGlob (n : String) : Bool :=
  isPrefixL "backup_".data n.data && endsWithL ".zip".data n.data

/-- `AutoUpdater._cleanup_old_backups`: drop every `backup_*.zip` whose
mtime is strictly older than `now - backup_retention_days` (default 7)
days; any error is logged and swallowed, so the operation always
returns a state. -/
def _cleanup_old_backups (now : Int) (st : UpdaterState) : UpdaterState :=
  let p := load_version_info st.baseFs now
  let retention_days := p.1.backup_retention_days.getD 7
  let cutoff := now - retention_days * 86400
  { st with
    baseFs := p.2,
    backups := st.backups.filter
      (fun b => !(matchesBackupGlob b.name && decide (b.mtime < cutoff))) }

/-- `files_to_backup` (lines 242–248). -/
def files_to_backup : List String :=
  ["notebook_monitor_service.py", "version.json", ".env", "requirements.txt",
   "database_schema.sql"]

/-- Archive name `backup_v{version}_{timestamp}.zip`; the
second-resolution `strftime` timestamp is rendered from `now`. -/
def backupName (ver : String) (now : Int) : String :=
  "backup_v" ++ ver ++ "_" ++ toString now ++ ".zip"

/-- The zip-writing loop of `create_backup`: each listed file that
exists is added under its plain name; missing files are skipped. -/
def collectFiles (fs : FS) : List String → FS
  | [] => []
  | f :: rest =>
    match fsLookup fs f with
    | some d => (f, d) :: collectFiles fs rest
    | none => collectFiles fs rest

/-- Entries of the archive built by `create_backup`. -/
def backupEntries (fs : FS) : FS := collectFiles fs files_to_backup

/-- `AutoUpdater.create_backup`: build the archive from the live
installation, then prune old backups; `backup_io_ok = false` models an
I/O exception (caught, returns `None` with nothing written). -/
def create_backup (backup_io_ok : Bool) (now : Int) (st : UpdaterState) :
    Option String × UpdaterState :=
  if !backup_io_ok then (none, st)
  else
    let p := load_version_info st.baseFs now
    let name := backupName (p.1.version.getD "unknown") now
    let st1 : UpdaterState :=
      { st with
        baseFs := p.2,
        backups := st.backups.filter (fun b => b.name ≠ name)
          ++ [⟨name, now, backupEntries p.2⟩] }
    (some name, _cleanup_old_backups now st1)

/-- `zipf.extractall(self.base_dir)`: write every archive entry over the
installation directory. -/
def restoreOver (base : FS) (entries : FS) : FS :=
  entries.foldl (fun b e => fsWrite b e.1 e.2) base

/-- `AutoUpdater.rollback_update`: stop the service (result ignored),
extract the named backup over the installation directory, restart; the
returned flag is the restart result. A missing archive raises inside
`zipfile` and is caught, returning failure with nothing restored. -/
def rollback_update (start_ok : Bool) (backup_path : String) (st : UpdaterState) :
    Bool × UpdaterState :=
  match st.backups.find? (fun b => b.name == backup_path) with
  | none => (false, st)
  | some b => (start_ok, { st with baseFs := restoreOver st.baseFs b.entries })

/-- `AutoUpdater.cleanup_temp_files`: remove the scratch directory if it
exists (the successful `shutil.rmtree` path). -/
def cleanup_temp_files (st : UpdaterState) : UpdaterState :=
  { st with temp := none }

/-- Record with the 7-day retention policy. -/
def viRet : VersionInfo := { backup_retention_days := some 7 }

/-- Archives dated 10, 5 and 1 days before `now = 1000000`. -/
def bOld : Backup := ⟨"backup_v1_a.zip", 136000, []⟩

/-- The 5-day-old archive. -/
def bMid : Backup := ⟨"backup_v1_b.zip", 568000, []⟩

/-- The 1-day-old archive. -/
def bNew : Backup := ⟨"backup_v1_c.zip", 913600, []⟩

/-- State holding the three archives and the retention record. -/
def stRet : UpdaterState :=
  ⟨[("version.json", FileData.vinfo viRet)], [bOld, bMid, bNew], none⟩

/-- Installation state used by the round-trip witness: a record plus an
`.env` file. -/
def stRound : UpdaterState :=
  ⟨[("version.json", FileData.vinfo viStale), (".env", FileData.bytes [1, 2])], [], none⟩

/-! ### Validator (`validate_update` / `_has_critical_errors_in_logs`) -/

/-- The log file inspected by the validator. -/
def logFileName : String := "notebook_monitor.log"

/-- `critical_patterns` (lines 582–589). -/
def critical_patterns : List String :=
  ["CRITICAL", "FATAL", "Exception", "Error", "Failed to start", "Connection failed"]

/-- Python's `l[-50:]`. -/
def takeLast (n : Nat) (l : List α) : List α := l.drop (l.length - n)

/-- `any(pattern in line for pattern in critical_patterns)`. -/
def lineHasCritical (line : String) : Bool :=
  critical_patterns.any (fun p => containsSub p.data line.data)

/-- The scan loop over the tail lines (the computed five-minute window
is never applied, exactly as in the source). -/
def scanLines (lines : List String) : Bool := lines.any lineHasCritical

/-- `AutoUpdater._has_critical_errors_in_logs`. `logFile` is the log's
content if the file exists. `decodeLines` is the encoding loop's result
(`readlines` under the first encoding that succeeds; `errors='ignore'`
makes it total); `binDecode` is the binary fallback, `none` when that
read raises (the inner `except`, which returns `False`). -/
def _has_critical_errors_in_logs (logFile : Option FileData)
    (decodeLines : FileData → List String)
    (binDecode : FileData → Option (List String)) : Bool :=
  match logFile with
  | none => false
  | some content =>
    let lines := takeLast 50 (decodeLines content)
    if lines.isEmpty then
      match binDecode content with
      | none => false
      | some ls => scanLines (takeLast 50 ls)
    else scanLines lines

/-- `AutoUpdater.validate_update`: start the service, confirm it runs
after the settle period, then fail on critical log markers. -/
def validate_update (start_ok running critical : Bool) : Bool :=
  if !start_ok then false
  else if !running then false
  else if critical then false
  else true

/-! ### Orchestrator (`perform_update`) -/

/-- All external-collaborator outcomes of one update cycle. -/
structure PerformEnv where
  feed : Option ReleaseInfo
  fetch : String → Option String
  sha256hex : List Nat → String
  downloadBytes : Option (List Nat)
  extracted : Option ExtractedTree
  backup_io_ok : Bool
  install_stop_ok : Bool
  validate_start_ok : Bool
  validate_running : Bool
  decodeLines : FileData → List String
  binDecode : FileData → Option (List String)
  rollback_start_ok : Bool

/-- The `try` body of `AutoUpdater.perform_update`: check → backup →
download → install → validate → (on validation failure) rollback. No
step of the source body can raise (each callee catches its own
exceptions), so the top-level `except` is unreachable. -/
def perform_update_body (env : PerformEnv) (now : Int) (st0 : UpdaterState) :
    Bool × UpdaterState :=
  let cr := check_for_updates st0.baseFs now env.feed env.fetch
  let st1 : UpdaterState := { st0 with baseFs := cr.fs }
  match cr.result with
  | none => (true, st1)
  | some ui =>
    let cb := create_backup env.backup_io_ok now st1
    match cb.1 with
    | none => (false, cb.2)
    | some backup_path =>
      let dl := download_update ui env.downloadBytes env.sha256hex cb.2.temp
      let st3 : UpdaterState := { cb.2 with temp := dl.2 }
      match dl.1 with
      | none => (false, st3)
      | some _ =>
        let inst := install_update env.install_stop_ok env.extracted ui now st3.baseFs
        let st4 : UpdaterState := { st3 with baseFs := inst.2 }
        if !inst.1 then (false, st4)
        else
          let critical := _has_critical_errors_in_logs
            (fsLookup st4.baseFs logFileName) env.decodeLines env.binDecode
          if validate_update env.validate_start_ok env.validate_running critical then
            (true, st4)
          else
            (false, (rollback_update env.rollback_start_ok backup_path st4).2)

/-- `AutoUpdater.perform_update`: the body above wrapped by the
`finally` clause that always removes the scratch directory. -/
def perform_update (env : PerformEnv) (now : Int) (st0 : UpdaterState) :
    Bool × UpdaterState :=
  let r := perform_update_body env now st0
  (r.1, cleanup_temp_files r.2)

/-- Feed document for the rollback witness: tag `v1.1.0`, source
archive only. -/
def riB : ReleaseInfo := { tag_name := some "v1.1.0", zipball_url := some "z" }

/-- The candidate `check_for_updates` produces from `riB`. -/
def uiB : UpdateInfo :=
  { version := "1.1.0", download_url := some "z", release_notes := "",
    published_at := none, checksum := none }

/-- Pre-update installation: record at 1.0.0 plus an `.env` file. -/
def stB : UpdaterState :=
  ⟨[("version.json", FileData.vinfo viStale), (".env", FileData.bytes [9])], [], none⟩

/-- Environment of the rollback witness: every step succeeds except the
post-install service start. -/
def envB : PerformEnv :=
  { feed := some riB, fetch := fun _ => none, sha256hex := fun _ => "",
    downloadBytes := some [1], extracted := some ⟨[], []⟩,
    backup_io_ok := true, install_stop_ok := true,
    validate_start_ok := false, validate_running := false,
    decodeLines := fun _ => [], binDecode := fun _ => none,
    rollback_start_ok := true }

/-! ### Theorems -/

theorem fsLookup_fsRemove_self (fs : FS) (k : String) :
    fsLookup (fsRemove fs k) k = none := by
  induction fs with
  | nil => rfl
  | cons e rest ih =>
    show fsLookup (if e.1 = k then fsRemove rest k else e :: fsRemove rest k) k = none
    by_cases he : e.1 = k
    · rw [if_pos he]; exact ih
    · rw [if_neg he]
      show (if e.1 = k then some e.2 else fsLookup (fsRemove rest k) k) = none
      rw [if_neg he]; exact ih

theorem fsLookup_fsRemove_ne (fs : FS) (k k' : String) (h : k' ≠ k) :
    fsLookup (fsRemove fs k) k' = fsLookup fs k' := by
  induction fs with
  | nil => rfl
  | cons e rest ih =>
    show fsLookup (if e.1 = k then fsRemove rest k else e :: fsRemove rest k) k'
        = if e.1 = k' then some e.2 else fsLookup rest k'
    by_cases he : e.1 = k
    · have hk' : ¬ e.1 = k' := fun hx => h (by rw [← hx, he])
      rw [if_pos he, if_neg hk']; exact ih
    · rw [if_neg he]
      show (if e.1 = k' then some e.2 else fsLookup (fsRemove rest k) k') = _
      by_cases hk' : e.1 = k'
      · rw [if_pos hk', if_pos hk']
      · rw [if_neg hk', if_neg hk']; exact ih

theorem fsLookup_fsWrite_self (fs : FS) (k : String) (v : FileData) :
    fsLookup (fsWrite fs k v) k = some v := by
  simp [fsLookup, fsWrite]

theorem fsLookup_fsWrite_ne (fs : FS) (k k' : String) (v : FileData) (h : k' ≠ k) :
    fsLookup (fsWrite fs k v) k' = fsLookup fs k' := by
  have : ¬ (k = k') := fun hk => h hk.symm
  simp only [fsLookup, fsWrite, this, if_false]
  exact fsLookup_fsRemove_ne fs k k' h

/-- The source's tuple comparison agrees with the standard strict
lexicographic order on integer lists (`tupleGt ta tb` means `tb` is
lexicographically below `ta`; a strict prefix is smaller, as for Python
tuples). -/
theorem tupleGt_eq_true_iff (ta tb : List Int) :
    tupleGt ta tb = true ↔ List.Lex (· < ·) tb ta := by
  induction ta generalizing tb with
  | nil =>
    cases tb with
    | nil =>
      constructor
      · intro h; cases h
      · intro h; cases h
    | cons b bs =>
      constructor
      · intro h; cases h
      · intro h; cases h
  | cons a as' ih =>
    cases tb with
    | nil =>
      constructor
      · intro _; exact List.Lex.nil
      · intro _; rfl
    | cons b bs =>
      show (if a > b then true else if a < b then false else tupleGt as' bs) = true ↔ _
      by_cases hab : a > b
      · rw [if_pos hab]
        constructor
        · intro _; exact List.Lex.rel hab
        · intro _; rfl
      · rw [if_neg hab]
        by_cases hba : a < b
        · rw [if_pos hba]
          constructor
          · intro h; cases h
          · intro h
            cases h with
            | rel h' => exact absurd h' (lt_asymm hba)
            | cons h' => exact absurd rfl (ne_of_lt hba)
        · rw [if_neg hba]
          have hba' : b ≤ a := le_of_not_lt hba
          have hab' : a ≤ b := le_of_not_lt hab
          have heq : a = b := le_antisymm hab' hba'
          subst heq
          constructor
          · intro h; exact List.Lex.cons ((ih bs).mp h)
          · intro h
            cases h with
            | rel h' => exact absurd h' (lt_irrefl a)
            | cons h' => exact (ih bs).mpr h'

/-- C4: version comparison parses both strings by splitting on "." into
integer tuples and declares the first newer exactly when its tuple is
lexicographically greater; `isNewer("1.10.0","1.9.9")` is true,
`isNewer("1.2","1.2.0")` is false, and whenever either string fails to
parse the comparison returns not-newer without crashing. -/
theorem is_newer_version_lex_and_fail_closed :
    _is_newer_version "1.10.0" "1.9.9" = true
    ∧ _is_newer_version "1.2" "1.2.0" = false
    ∧ (∀ a b : String, version_tuple a = none ∨ version_tuple b = none →
        _is_newer_version a b = false)
    ∧ (∀ (a b : String) (ta tb : List Int),
        version_tuple a = some ta → version_tuple b = some tb →
        (_is_newer_version a b = true ↔ List.Lex (· < ·) tb ta)) := by
  refine ⟨by decide, by decide, ?_, ?_⟩
  · intro a b h
    unfold _is_newer_version
    rcases h with h | h
    · rw [h]
    · rw [h]; cases version_tuple a <;> rfl
  · intro a b ta tb ha hb
    unfold _is_newer_version
    rw [ha, hb]
    exact tupleGt_eq_true_iff ta tb

/-- Witness for C4 at concrete inputs: a malformed left argument is
not-newer, and "2.1" over "2.0" is newer via the lexicographic order. -/
theorem is_newer_version_lex_and_fail_closed_witness :
    _is_newer_version "1.a" "1.0" = false ∧ _is_newer_version "2.1" "2.0" = true :=
  ⟨is_newer_version_lex_and_fail_closed.2.2.1 "1.a" "1.0" (Or.inl (by decide)),
   (is_newer_version_lex_and_fail_closed.2.2.2 "2.1" "2.0" [2, 1] [2, 0]
      (by decide) (by decide)).mpr (List.Lex.cons (List.Lex.rel (by norm_num)))⟩

theorem load_version_info_of_vinfo (fs : FS) (vi : VersionInfo) (now : Int)
    (h : fsLookup fs "version.json" = some (FileData.vinfo vi)) :
    load_version_info fs now = (vi, fs) := by
  unfold load_version_info
  rw [h]

/-- C5: with a well-formed persisted record, `check_for_updates` returns
none and issues no feed request whenever auto-update is disabled, the
rate limiter is still in force, or no feed URL is configured. -/
theorem check_for_updates_gated (fs : FS) (vi : VersionInfo) (now : Int)
    (feed : Option ReleaseInfo) (fetch : String → Option String)
    (hvi : fsLookup fs "version.json" = some (FileData.vinfo vi))
    (hcond : vi.auto_update_enabled = some false
      ∨ (∃ last, vi.last_update_check = some last
          ∧ now - last < vi.update_check_interval.getD 86400)
      ∨ vi.update_url.getD "" = "") :
    (check_for_updates fs now feed fetch).result = none
    ∧ (check_for_updates fs now feed fetch).networkCalled = false := by
  have hload := load_version_info_of_vinfo fs vi now hvi
  by_cases h1 : vi.auto_update_enabled.getD true = false
  · constructor <;> simp [check_for_updates, hload, h1]
  · rcases hcond with hc | ⟨last, hlast, hlt⟩ | hurl
    · exact absurd (by rw [hc]; rfl) h1
    · have hth : throttleHit vi now = true := by
        unfold throttleHit; rw [hlast]; exact decide_eq_true hlt
      constructor <;> simp [check_for_updates, hload, h1, hth]
    · by_cases h2 : throttleHit vi now = true
      · constructor <;> simp [check_for_updates, hload, h1, h2]
      · constructor <;> simp [check_for_updates, hload, h1, h2, hurl]

/-- Witness for C5: a record whose `last_update_check` equals `now` with
the 86400 s interval yields none with no network call. -/
theorem check_for_updates_gated_witness :
    (check_for_updates fsThrottled 1000 (some {}) (fun _ => none)).result = none
    ∧ (check_for_updates fsThrottled 1000 (some {}) (fun _ => none)).networkCalled = false :=
  check_for_updates_gated fsThrottled viThrottled 1000 (some {}) (fun _ => none) (by decide)
    (Or.inr (Or.inl ⟨1000, by decide, by decide⟩))

/-- C3: with a well-formed persisted record, a transport error makes
`check_for_updates` return none with the installation directory (hence
`last_update_check`) untouched, while any cycle that actually issues the
feed request and gets a response persists `last_update_check = now`,
whether or not a newer version was found. -/
theorem check_for_updates_lastCheckTimestamp (fs : FS) (vi : VersionInfo) (now : Int)
    (fetch : String → Option String)
    (hvi : fsLookup fs "version.json" = some (FileData.vinfo vi)) :
    ((check_for_updates fs now none fetch).result = none
      ∧ (check_for_updates fs now none fetch).fs = fs)
    ∧ (∀ ri : ReleaseInfo,
        (check_for_updates fs now (some ri) fetch).networkCalled = true →
        fsLookup (check_for_updates fs now (some ri) fetch).fs "version.json"
          = some (FileData.vinfo { vi with last_update_check := some now })) := by
  have hload := load_version_info_of_vinfo fs vi now hvi
  constructor
  · by_cases h1 : vi.auto_update_enabled.getD true = false
    · constructor <;> simp [check_for_updates, hload, h1]
    · by_cases h2 : throttleHit vi now = true
      · constructor <;> simp [check_for_updates, hload, h1, h2]
      · by_cases h3 : vi.update_url.getD "" = ""
        · constructor <;> simp [check_for_updates, hload, h1, h2, h3]
        · constructor <;> simp [check_for_updates, hload, h1, h2, h3]
  · intro ri hnet
    by_cases h1 : vi.auto_update_enabled.getD true = false
    · simp [check_for_updates, hload, h1] at hnet
    · by_cases h2 : throttleHit vi now = true
      · simp [check_for_updates, hload, h1, h2] at hnet
      · by_cases h3 : vi.update_url.getD "" = ""
        · simp [check_for_updates, hload, h1, h2, h3] at hnet
        · by_cases h4 : _is_newer_version (stripV (ri.tag_name.getD ""))
              (vi.version.getD "0.0.0") = true
          · simp [check_for_updates, hload, h1, h2, h3, h4, save_version_info,
              fsLookup_fsWrite_self]
          · simp [check_for_updates, hload, h1, h2, h3, h4, save_version_info,
              fsLookup_fsWrite_self]

/-- Witness for C3: a reachable record where the transport-error call
leaves the directory unchanged, and a successful response stamps
`last_update_check`. -/
theorem check_for_updates_lastCheckTimestamp_witness :
    ((check_for_updates fsStale 1000 none (fun _ => none)).result = none
      ∧ (check_for_updates fsStale 1000 none (fun _ => none)).fs = fsStale)
    ∧ fsLookup (check_for_updates fsStale 1000
          (some { tag_name := some "v1.1.0" }) (fun _ => none)).fs "version.json"
        = some (FileData.vinfo { viStale with last_update_check := some 1000 }) :=
  ⟨(check_for_updates_lastCheckTimestamp fsStale viStale 1000 (fun _ => none) (by decide)).1,
   (check_for_updates_lastCheckTimestamp fsStale viStale 1000 (fun _ => none) (by decide)).2
      { tag_name := some "v1.1.0" } (by decide)⟩

/-- C2: when the candidate carries an expected checksum, a digest
mismatch (case-insensitively) makes `download_update` fail and leaves no
file at the target scratch path, while agreeing digests pass
verification and return the scratch path with the payload in place. -/
theorem download_update_checksum_gate (ui : UpdateInfo) (b : List Nat)
    (sha256hex : List Nat → String) (temp : Option FS) (c : String)
    (hurl : ui.download_url.getD "" ≠ "")
    (hck : ui.checksum = some c) :
    (lowerChars (sha256hex b) ≠ lowerChars c →
      (download_update ui (some b) sha256hex temp).1 = none
      ∧ fsLookup ((download_update ui (some b) sha256hex temp).2.getD [])
          (targetScratchName ui.version) = none)
    ∧ (lowerChars (sha256hex b) = lowerChars c →
      (download_update ui (some b) sha256hex temp).1 = some (targetScratchName ui.version)
      ∧ fsLookup ((download_update ui (some b) sha256hex temp).2.getD [])
          (targetScratchName ui.version) = some (FileData.bytes b)) := by
  constructor
  · intro hne
    have hv : _verify_checksum b c sha256hex = false := by
      unfold _verify_checksum
      exact beq_eq_false_iff_ne.mpr hne
    constructor
    · simp [download_update, hurl, hck, hv]
    · simp [download_update, hurl, hck, hv, fsLookup_fsRemove_self]
  · intro heq
    have hv : _verify_checksum b c sha256hex = true := by
      unfold _verify_checksum
      exact beq_iff_eq.mpr heq
    constructor
    · simp [download_update, hurl, hck, hv]
    · simp [download_update, hurl, hck, hv, fsLookup_fsWrite_self]

/-- Witness for C2: a digest "cd" fails against expected "AB" leaving no
scratch file; a digest "ab" passes case-insensitively. -/
theorem download_update_checksum_gate_witness :
    ((download_update uiChecksum (some [7]) (fun _ => "cd") none).1 = none
      ∧ fsLookup ((download_update uiChecksum (some [7]) (fun _ => "cd") none).2.getD [])
          (targetScratchName uiChecksum.version) = none)
    ∧ ((download_update uiChecksum (some [7]) (fun _ => "ab") none).1
          = some (targetScratchName uiChecksum.version)
      ∧ fsLookup ((download_update uiChecksum (some [7]) (fun _ => "ab") none).2.getD [])
          (targetScratchName uiChecksum.version) = some (FileData.bytes [7])) :=
  ⟨(download_update_checksum_gate uiChecksum [7] (fun _ => "cd") none "AB"
      (by decide) rfl).1 (by decide),
   (download_update_checksum_gate uiChecksum [7] (fun _ => "ab") none "AB"
      (by decide) rfl).2 (by decide)⟩

theorem lookup_foldl_copyFile (src : FS) (dir : String) (names : List String)
    (fs : FS) (p : String) (h : p ∉ names) :
    fsLookup (names.foldl (copyFile src dir) fs) p = fsLookup fs p := by
  induction names generalizing fs with
  | nil => rfl
  | cons f rest ih =>
    have hp : p ≠ f := fun hx => h (hx ▸ List.mem_cons_self f rest)
    have hrest : p ∉ rest := fun hx => h (List.mem_cons_of_mem f hx)
    show fsLookup (rest.foldl (copyFile src dir) (copyFile src dir fs f)) p = _
    rw [ih (copyFile src dir fs f) hrest]
    unfold copyFile
    cases fsLookup src (joinPath dir f) with
    | none => rfl
    | some d => exact fsLookup_fsWrite_ne fs f p d hp

theorem foldl_copyFile_of_absent (src : FS) (dir : String) (names : List String)
    (fs : FS) (h : ∀ f ∈ names, fsLookup src (joinPath dir f) = none) :
    names.foldl (copyFile src dir) fs = fs := by
  induction names generalizing fs with
  | nil => rfl
  | cons f rest ih =>
    show rest.foldl (copyFile src dir) (copyFile src dir fs f) = fs
    have hf : fsLookup src (joinPath dir f) = none := h f (List.mem_cons_self f rest)
    have : copyFile src dir fs f = fs := by unfold copyFile; rw [hf]
    rw [this]
    exact ih fs (fun g hg => h g (List.mem_cons_of_mem f hg))

/-- C6: with the service stopped and the artifact extracted,
`install_update` succeeds, touches only the well-known updatable files
plus `version.json`, advances the record to the candidate's version with
both timestamps refreshed, copies nothing when none of the expected
files exist at the located root, and falls back to the extraction root
when no walked directory holds the main service file. -/
theorem install_update_eq (t : ExtractedTree)
    (ui : UpdateInfo) (now : Int) (fs : FS) (vi : VersionInfo)
    (hvi : fsLookup fs "version.json" = some (FileData.vinfo vi)) :
    install_update true (some t) ui now fs
      = (true, save_version_info (copyUpdateFiles t.files (_find_main_directory t.walk) fs)
          { vi with
            version := some ui.version,
            build_date := some now, last_update := some now }) := by
  have hnotin : "version.json" ∉ files_to_update := by decide
  have hfs1 : fsLookup (copyUpdateFiles t.files (_find_main_directory t.walk) fs) "version.json"
      = some (FileData.vinfo vi) := by
    rw [copyUpdateFiles, lookup_foldl_copyFile t.files _ files_to_update fs _ hnotin, hvi]
  have hload := load_version_info_of_vinfo _ vi now hfs1
  unfold install_update
  simp only [Bool.not_true, Bool.false_eq_true, if_false, hload]

theorem install_update_advances_record (src : FS) (walk : List (String × List String))
    (ui : UpdateInfo) (now : Int) (fs : FS) (vi : VersionInfo)
    (hvi : fsLookup fs "version.json" = some (FileData.vinfo vi)) :
    (install_update true (some ⟨walk, src⟩) ui now fs).1 = true
    ∧ fsLookup (install_update true (some ⟨walk, src⟩) ui now fs).2 "version.json"
        = some (FileData.vinfo { vi with
            version := some ui.version,
            build_date := some now, last_update := some now })
    ∧ (∀ p, p ∉ files_to_update → p ≠ "version.json" →
        fsLookup (install_update true (some ⟨walk, src⟩) ui now fs).2 p = fsLookup fs p)
    ∧ ((∀ f ∈ files_to_update,
          fsLookup src (joinPath (_find_main_directory walk) f) = none) →
        ∀ p, p ≠ "version.json" →
          fsLookup (install_update true (some ⟨walk, src⟩) ui now fs).2 p = fsLookup fs p)
    ∧ (walk.find? (fun d => d.2.contains mainServiceFile) = none →
        _find_main_directory walk = "") := by
  have hinstall := install_update_eq ⟨walk, src⟩ ui now fs vi hvi
  refine ⟨by rw [hinstall], ?_, ?_, ?_, ?_⟩
  · rw [hinstall]
    exact fsLookup_fsWrite_self _ _ _
  · intro p hp1 hp2
    rw [hinstall]
    show fsLookup (fsWrite _ "version.json" _) p = _
    rw [fsLookup_fsWrite_ne _ _ _ _ hp2]
    exact lookup_foldl_copyFile src _ files_to_update fs p hp1
  · intro habs p hp2
    rw [hinstall]
    show fsLookup (fsWrite _ "version.json" _) p = _
    rw [fsLookup_fsWrite_ne _ _ _ _ hp2]
    rw [copyUpdateFiles, foldl_copyFile_of_absent src _ files_to_update fs habs]
  · intro hnone
    unfold _find_main_directory
    rw [hnone]

/-- Witness for C6: an artifact containing none of the expected files
still installs successfully and advances the record. -/
theorem install_update_advances_record_witness :
    (install_update true (some ⟨[], []⟩) uiChecksum 5 fsStale).1 = true
    ∧ fsLookup (install_update true (some ⟨[], []⟩) uiChecksum 5 fsStale).2 "version.json"
        = some (FileData.vinfo { viStale with
            version := some "1.1.0",
            build_date := some 5, last_update := some 5 }) :=
  ⟨(install_update_advances_record [] [] uiChecksum 5 fsStale viStale (by decide)).1,
   (install_update_advances_record [] [] uiChecksum 5 fsStale viStale (by decide)).2.1⟩

/-- C8: with a well-formed persisted record, pruning keeps the
installation directory intact, deletes exactly those `backup_*.zip`
archives strictly older than `now - backupRetentionDays`, leaves
non-matching files alone, and never adds archives. Pruning is total
(errors in the source are caught and logged), so the update path is
never blocked. -/
theorem cleanup_old_backups_retention (st : UpdaterState) (vi : VersionInfo) (now : Int)
    (hvi : fsLookup st.baseFs "version.json" = some (FileData.vinfo vi)) :
    (_cleanup_old_backups now st).baseFs = st.baseFs
    ∧ (∀ b ∈ st.backups, matchesBackupGlob b.name = true →
        (b ∈ (_cleanup_old_backups now st).backups ↔
          ¬(b.mtime < now - (vi.backup_retention_days.getD 7) * 86400)))
    ∧ (∀ b ∈ st.backups, matchesBackupGlob b.name = false →
        b ∈ (_cleanup_old_backups now st).backups)
    ∧ (∀ b ∈ (_cleanup_old_backups now st).backups, b ∈ st.backups) := by
  have hload := load_version_info_of_vinfo st.baseFs vi now hvi
  have hst : _cleanup_old_backups now st
      = { st with
          baseFs := st.baseFs,
          backups := st.backups.filter (fun b => !(matchesBackupGlob b.name
            && decide (b.mtime < now - (vi.backup_retention_days.getD 7) * 86400))) } := by
    unfold _cleanup_old_backups
    rw [hload]
  refine ⟨by rw [hst], ?_, ?_, ?_⟩
  · intro b hb hglob
    rw [hst]
    show b ∈ st.backups.filter _ ↔ _
    rw [List.mem_filter]
    constructor
    · intro ⟨_, hkeep⟩
      intro hlt
      rw [hglob, Bool.true_and, decide_eq_true hlt] at hkeep
      exact Bool.false_ne_true hkeep
    · intro hnlt
      refine ⟨hb, ?_⟩
      rw [hglob, Bool.true_and, decide_eq_false hnlt]
      rfl
  · intro b hb hglob
    rw [hst]
    show b ∈ st.backups.filter _
    rw [List.mem_filter]
    refine ⟨hb, ?_⟩
    rw [hglob, Bool.false_and]
    rfl
  · intro b hb
    rw [hst] at hb
    exact (List.mem_filter.mp hb).1

/-- Witness for C8: with retention 7 days, only the 10-day-old archive
is removed. -/
theorem cleanup_old_backups_retention_witness :
    bOld ∉ (_cleanup_old_backups 1000000 stRet).backups
    ∧ bMid ∈ (_cleanup_old_backups 1000000 stRet).backups
    ∧ bNew ∈ (_cleanup_old_backups 1000000 stRet).backups :=
  ⟨fun hmem =>
    ((cleanup_old_backups_retention stRet viRet 1000000 (by decide)).2.1 bOld
      (by decide) (by decide)).mp hmem (by decide),
   ((cleanup_old_backups_retention stRet viRet 1000000 (by decide)).2.1 bMid
      (by decide) (by decide)).mpr (by decide),
   ((cleanup_old_backups_retention stRet viRet 1000000 (by decide)).2.1 bNew
      (by decide) (by decide)).mpr (by decide)⟩

theorem restore_collect_notin (fs : FS) (names : List String) (base : FS)
    (f : String) (h : f ∉ names) :
    fsLookup (restoreOver base (collectFiles fs names)) f = fsLookup base f := by
  induction names generalizing base with
  | nil => rfl
  | cons g rest ih =>
    have hfg : f ≠ g := fun hx => h (hx ▸ List.mem_cons_self g rest)
    have hfr : f ∉ rest := fun hx => h (List.mem_cons_of_mem g hx)
    show fsLookup (restoreOver base
      (match fsLookup fs g with
        | some d => (g, d) :: collectFiles fs rest
        | none => collectFiles fs rest)) f = fsLookup base f
    cases hg : fsLookup fs g with
    | none => exact ih base hfr
    | some dg =>
      show fsLookup (restoreOver (fsWrite base g dg) (collectFiles fs rest)) f = _
      rw [ih (fsWrite base g dg) hfr]
      exact fsLookup_fsWrite_ne base g f dg hfg

theorem restore_collect_mem (fs : FS) (names : List String) (base : FS)
    (f : String) (d : FileData) (hnd : names.Nodup) (hmem : f ∈ names)
    (hd : fsLookup fs f = some d) :
    fsLookup (restoreOver base (collectFiles fs names)) f = some d := by
  induction names generalizing base with
  | nil => cases hmem
  | cons g rest ih =>
    have hnd' := List.nodup_cons.mp hnd
    show fsLookup (restoreOver base
      (match fsLookup fs g with
        | some dd => (g, dd) :: collectFiles fs rest
        | none => collectFiles fs rest)) f = some d
    by_cases hfg : f = g
    · subst hfg
      rw [hd]
      show fsLookup (restoreOver (fsWrite base f d) (collectFiles fs rest)) f = some d
      rw [restore_collect_notin fs rest (fsWrite base f d) f hnd'.1]
      exact fsLookup_fsWrite_self base f d
    · have hmr : f ∈ rest := by
        cases List.mem_cons.mp hmem with
        | inl hx => exact absurd hx hfg
        | inr hx => exact hx
      cases hg : fsLookup fs g with
      | none => exact ih base hnd'.2 hmr
      | some dg =>
        show fsLookup (restoreOver (fsWrite base g dg) (collectFiles fs rest)) f = some d
        exact ih (fsWrite base g dg) hnd'.2 hmr

theorem find?_backups_append (l : List Backup) (nb : Backup) (path : String)
    (hl : ∀ b ∈ l, (b.name == path) = false) (hnb : nb.name = path) :
    (l ++ [nb]).find? (fun b => b.name == path) = some nb := by
  induction l with
  | nil =>
    show List.find? (fun b => b.name == path) [nb] = some nb
    have : (nb.name == path) = true := by rw [hnb]; exact beq_self_eq_true path
    simp [List.find?, this]
  | cons b rest ih =>
    have hb := hl b (List.mem_cons_self b rest)
    show List.find? (fun b => b.name == path) (b :: (rest ++ [nb])) = some nb
    rw [List.find?_cons_of_neg _ (by rw [hb]; exact Bool.false_ne_true)]
    exact ih (fun b' hb' => hl b' (List.mem_cons_of_mem b hb'))

theorem create_backup_eq (st : UpdaterState) (vi : VersionInfo) (now : Int)
    (hvi : fsLookup st.baseFs "version.json" = some (FileData.vinfo vi))
    (hret : 0 ≤ vi.backup_retention_days.getD 7) :
    create_backup true now st
      = (some (backupName (vi.version.getD "unknown") now),
         { st with
           backups := (st.backups.filter
               (fun b => b.name ≠ backupName (vi.version.getD "unknown") now)).filter
               (fun b => !(matchesBackupGlob b.name && decide (b.mtime
                 < now - vi.backup_retention_days.getD 7 * 86400)))
             ++ [⟨backupName (vi.version.getD "unknown") now, now,
                 backupEntries st.baseFs⟩] }) := by
  have hload := load_version_info_of_vinfo st.baseFs vi now hvi
  have hnlt : ¬ (now < now - vi.backup_retention_days.getD 7 * 86400) := by
    omega
  have hkeep : (!(matchesBackupGlob (backupName (vi.version.getD "unknown") now)
      && decide (now < now - vi.backup_retention_days.getD 7 * 86400))) = true := by
    rw [decide_eq_false hnlt, Bool.and_false]
    rfl
  unfold create_backup _cleanup_old_backups
  simp only [Bool.not_true, Bool.false_eq_true, if_false, hload, List.filter_append,
    List.filter_cons, List.filter_nil, hkeep, if_true]

/-- C7: backup round-trip. For any installation state, restoring the
archive that `create_backup` produced (over any later state `mid` of the
installation directory) reproduces, for each well-known file that
existed at backup time, its exact content at its original path. -/
theorem create_backup_rollback_roundtrip (st : UpdaterState) (vi : VersionInfo)
    (now : Int) (mid : FS) (start_ok : Bool) (f : String) (d : FileData)
    (hvi : fsLookup st.baseFs "version.json" = some (FileData.vinfo vi))
    (hret : 0 ≤ vi.backup_retention_days.getD 7)
    (hf : f ∈ files_to_backup) (hd : fsLookup st.baseFs f = some d) :
    fsLookup ((rollback_update start_ok ((create_backup true now st).1.getD "")
        { (create_backup true now st).2 with baseFs := mid }).2).baseFs f = some d := by
  rw [create_backup_eq st vi now hvi hret]
  have hmemname : ∀ b ∈ (st.backups.filter
      (fun b => b.name ≠ backupName (vi.version.getD "unknown") now)).filter
      (fun b => !(matchesBackupGlob b.name && decide (b.mtime
        < now - vi.backup_retention_days.getD 7 * 86400))),
      (b.name == backupName (vi.version.getD "unknown") now) = false := by
    intro b hb
    have h1 := (List.mem_filter.mp hb).1
    have h2 := (List.mem_filter.mp h1).2
    exact beq_eq_false_iff_ne.mpr (of_decide_eq_true h2)
  have hfind := find?_backups_append _
    ⟨backupName (vi.version.getD "unknown") now, now, backupEntries st.baseFs⟩
    (backupName (vi.version.getD "unknown") now) hmemname rfl
  show fsLookup ((rollback_update start_ok (backupName (vi.version.getD "unknown") now)
      _).2).baseFs f = some d
  unfold rollback_update
  rw [hfind]
  show fsLookup (restoreOver mid (backupEntries st.baseFs)) f = some d
  exact restore_collect_mem st.baseFs files_to_backup mid f d (by decide) hf hd

/-- Witness for C7: the `.env` content written before the backup is
restored verbatim even after the directory was emptied. -/
theorem create_backup_rollback_roundtrip_witness :
    fsLookup ((rollback_update true ((create_backup true 100 stRound).1.getD "")
        { (create_backup true 100 stRound).2 with baseFs := [] }).2).baseFs ".env"
      = some (FileData.bytes [1, 2]) :=
  create_backup_rollback_roundtrip stRound viStale 100 [] true ".env"
    (FileData.bytes [1, 2]) (by decide) (by decide) (by decide) (by decide)

/-- C10: the critical-error log check reports no critical errors when
the log file is absent, and likewise when no lines could be obtained by
the encoding loop and the binary fallback fails; a `true` verdict
requires an existing log with an actually-found critical marker, and a
`false` verdict lets validation be decided by the service state alone
(the log-scan step passes rather than failing closed). -/
theorem has_critical_errors_fail_open
    (decodeLines : FileData → List String)
    (binDecode : FileData → Option (List String)) :
    (_has_critical_errors_in_logs none decodeLines binDecode = false)
    ∧ (∀ content : FileData, decodeLines content = [] → binDecode content = none →
        _has_critical_errors_in_logs (some content) decodeLines binDecode = false)
    ∧ (∀ content : FileData,
        _has_critical_errors_in_logs (some content) decodeLines binDecode = true →
        scanLines (takeLast 50 (decodeLines content)) = true
        ∨ ∃ ls, binDecode content = some ls ∧ scanLines (takeLast 50 ls) = true)
    ∧ (∀ start_ok running : Bool,
        validate_update start_ok running false = (start_ok && running)) := by
  refine ⟨rfl, ?_, ?_, ?_⟩
  · intro content hdec hbin
    show (if (takeLast 50 (decodeLines content)).isEmpty then
        match binDecode content with
        | none => false
        | some ls => scanLines (takeLast 50 ls)
      else scanLines (takeLast 50 (decodeLines content))) = false
    rw [hdec, hbin]
    rfl
  · intro content h
    by_cases hempty : (takeLast 50 (decodeLines content)).isEmpty = true
    · right
      rw [show _has_critical_errors_in_logs (some content) decodeLines binDecode
          = (match binDecode content with
             | none => false
             | some ls => scanLines (takeLast 50 ls)) from by
            show (if (takeLast 50 (decodeLines content)).isEmpty then _ else _) = _
            rw [if_pos hempty]] at h
      cases hbin : binDecode content with
      | none => rw [hbin] at h; cases h
      | some ls => rw [hbin] at h; exact ⟨ls, rfl, h⟩
    · left
      rw [show _has_critical_errors_in_logs (some content) decodeLines binDecode
          = scanLines (takeLast 50 (decodeLines content)) from by
            show (if (takeLast 50 (decodeLines content)).isEmpty then _ else _) = _
            rw [if_neg hempty]] at h
      exact h
  · intro start_ok running
    cases start_ok <;> cases running <;> rfl

/-- Witness for C10: unreadable log content (empty decode, failing
binary fallback) yields no critical errors. -/
theorem has_critical_errors_fail_open_witness :
    _has_critical_errors_in_logs (some (FileData.bytes [0]))
      (fun _ => []) (fun _ => none) = false :=
  (has_critical_errors_fail_open (fun _ => []) (fun _ => none)).2.1
    (FileData.bytes [0]) rfl rfl

/-- C9: scoped-resource cleanup. On every execution path of
`perform_update` — no candidate, backup failure, download failure,
install failure, validation failure with or without successful rollback,
or success — the `finally` step removes the scratch directory before the
call returns. -/
theorem perform_update_scratch_cleanup (env : PerformEnv) (now : Int)
    (st0 : UpdaterState) :
    (perform_update env now st0).2.temp = none := rfl

theorem check_for_updates_result_some_fs (fs : FS) (vi : VersionInfo) (now : Int)
    (feed : Option ReleaseInfo) (fetch : String → Option String) (ui : UpdateInfo)
    (hvi : fsLookup fs "version.json" = some (FileData.vinfo vi))
    (h : (check_for_updates fs now feed fetch).result = some ui) :
    (check_for_updates fs now feed fetch).fs
      = fsWrite fs "version.json"
          (FileData.vinfo { vi with last_update_check := some now }) := by
  have hload := load_version_info_of_vinfo fs vi now hvi
  by_cases h1 : vi.auto_update_enabled.getD true = false
  · simp [check_for_updates, hload, h1] at h
  · by_cases h2 : throttleHit vi now = true
    · simp [check_for_updates, hload, h1, h2] at h
    · by_cases h3 : vi.update_url.getD "" = ""
      · simp [check_for_updates, hload, h1, h2, h3] at h
      · cases feed with
        | none => simp [check_for_updates, hload, h1, h2, h3] at h
        | some ri =>
          by_cases h4 : _is_newer_version (stripV (ri.tag_name.getD ""))
              (vi.version.getD "0.0.0") = true
          · simp [check_for_updates, hload, h1, h2, h3, h4, save_version_info]
          · simp [check_for_updates, hload, h1, h2, h3, h4] at h

/-- C1: in any cycle where a candidate is found, the backup is created,
the artifact downloads (and passes any checksum), the install completes,
but validation fails, `perform_update` rolls back: every file of the
pre-update backup archive is restored over the installation directory,
the persisted record again carries the pre-update `version` field, and
the call returns failure. -/
theorem perform_update_validation_failure_rolls_back
    (env : PerformEnv) (now : Int) (st0 : UpdaterState) (vi : VersionInfo)
    (ui : UpdateInfo) (tree : ExtractedTree)
    (hvi : fsLookup st0.baseFs "version.json" = some (FileData.vinfo vi))
    (hret : 0 ≤ vi.backup_retention_days.getD 7)
    (hcand : (check_for_updates st0.baseFs now env.feed env.fetch).result = some ui)
    (hbk : env.backup_io_ok = true)
    (hdl : (download_update ui env.downloadBytes env.sha256hex st0.temp).1 ≠ none)
    (hstop : env.install_stop_ok = true)
    (htree : env.extracted = some tree)
    (hval : validate_update env.validate_start_ok env.validate_running
        (_has_critical_errors_in_logs (fsLookup st0.baseFs logFileName)
          env.decodeLines env.binDecode) = false) :
    (perform_update env now st0).1 = false
    ∧ (∀ f d, f ∈ files_to_backup →
        fsLookup (check_for_updates st0.baseFs now env.feed env.fetch).fs f = some d →
        fsLookup (perform_update env now st0).2.baseFs f = some d)
    ∧ fsLookup (perform_update env now st0).2.baseFs "version.json"
        = some (FileData.vinfo { vi with last_update_check := some now })
    ∧ VersionInfo.version { vi with last_update_check := some now } = vi.version := by
  set vi1 : VersionInfo := { vi with last_update_check := some now } with hvi1e
  set crFs : FS := fsWrite st0.baseFs "version.json" (FileData.vinfo vi1) with hcrFse
  have hcrfs := check_for_updates_result_some_fs st0.baseFs vi now env.feed env.fetch ui
    hvi hcand
  rw [← hvi1e, ← hcrFse] at hcrfs
  have hvi1lookup : fsLookup crFs "version.json" = some (FileData.vinfo vi1) := by
    rw [hcrFse]; exact fsLookup_fsWrite_self _ _ _
  have hretv : 0 ≤ vi1.backup_retention_days.getD 7 := by rw [hvi1e]; exact hret
  have hcb := create_backup_eq { st0 with baseFs := crFs } vi1 now hvi1lookup hretv
  obtain ⟨p, hp⟩ := Option.ne_none_iff_exists'.mp hdl
  have hinst := install_update_eq tree ui now crFs vi1 hvi1lookup
  have hlog : ∀ (src : FS) (dir : String) (v' : VersionInfo),
      fsLookup (save_version_info (copyUpdateFiles src dir crFs) v') logFileName
        = fsLookup st0.baseFs logFileName := by
    intro src dir v'
    unfold save_version_info
    rw [fsLookup_fsWrite_ne _ _ _ _ (by decide)]
    rw [copyUpdateFiles, lookup_foldl_copyFile _ _ _ _ _ (by decide)]
    rw [hcrFse]
    exact fsLookup_fsWrite_ne _ _ _ _ (by decide)
  have hbody : perform_update_body env now st0
      = (false,
         (rollback_update env.rollback_start_ok (backupName (vi1.version.getD "unknown") now)
            { st0 with
              baseFs := save_version_info
                (copyUpdateFiles tree.files (_find_main_directory tree.walk) crFs)
                { vi1 with
                  version := some ui.version,
                  build_date := some now, last_update := some now },
              backups := (st0.backups.filter
                  (fun b => b.name ≠ backupName (vi1.version.getD "unknown") now)).filter
                  (fun b => !(matchesBackupGlob b.name && decide (b.mtime
                    < now - vi1.backup_retention_days.getD 7 * 86400)))
                ++ [⟨backupName (vi1.version.getD "unknown") now, now, backupEntries crFs⟩],
              temp := (download_update ui env.downloadBytes env.sha256hex st0.temp).2 }).2) := by
    simp only [perform_update_body, hcand, hcrfs, hbk, hcb, hp, hstop, htree, hinst,
      hlog, hval, Bool.not_true, Bool.false_eq_true, if_false, if_true]
  have hmem1 : ∀ b ∈ (st0.backups.filter
      (fun b => b.name ≠ backupName (vi1.version.getD "unknown") now)).filter
      (fun b => !(matchesBackupGlob b.name && decide (b.mtime
        < now - vi1.backup_retention_days.getD 7 * 86400))),
      (b.name == backupName (vi1.version.getD "unknown") now) = false := by
    intro b hb
    exact beq_eq_false_iff_ne.mpr
      (of_decide_eq_true (List.mem_filter.mp (List.mem_filter.mp hb).1).2)
  have hfind := find?_backups_append _
    ⟨backupName (vi1.version.getD "unknown") now, now, backupEntries crFs⟩
    (backupName (vi1.version.getD "unknown") now) hmem1 rfl
  have hafter : ∀ f d, f ∈ files_to_backup → fsLookup crFs f = some d →
      fsLookup (perform_update env now st0).2.baseFs f = some d := by
    intro f d hf hd
    simp only [perform_update, hbody, cleanup_temp_files, rollback_update]
    rw [hfind]
    exact restore_collect_mem crFs files_to_backup _ f d (by decide) hf hd
  refine ⟨?_, ?_, ?_, ?_⟩
  · simp only [perform_update, hbody]
  · intro f d hf hd
    rw [hcrfs] at hd
    exact hafter f d hf hd
  · exact hafter "version.json" (FileData.vinfo vi1) (by decide) hvi1lookup
  · rw [hvi1e]

/-- Witness for C1: the failed-validation cycle returns failure and the
persisted record again reads version "1.0.0". -/
theorem perform_update_validation_failure_rolls_back_witness :
    (perform_update envB 1000 stB).1 = false
    ∧ fsLookup (perform_update envB 1000 stB).2.baseFs "version.json"
        = some (FileData.vinfo { viStale with last_update_check := some 1000 })
    ∧ VersionInfo.version { viStale with last_update_check := some 1000 }
        = viStale.version :=
  ⟨(perform_update_validation_failure_rolls_back envB 1000 stB viStale uiB ⟨[], []⟩
      (by decide) (by decide) (by decide) rfl (by decide) rfl rfl (by decide)).1,
   (perform_update_validation_failure_rolls_back envB 1000 stB viStale uiB ⟨[], []⟩
      (by decide) (by decide) (by decide) rfl (by decide) rfl rfl (by decide)).2.2.1,
   (perform_update_validation_failure_rolls_back envB 1000 stB viStale uiB ⟨[], []⟩
      (by decide) (by decide) (by decide) rfl (by decide) rfl rfl (by decide)).2.2.2⟩
